import Mathlib

/-
  Verification development for the SolSight backend core:
  the volunteer matching engine, the WebRTC signaling relay and the
  blockchain reward transaction queue.

  The JavaScript services keep their state in `Map` objects; we embed those
  as association lists with unique keys, written and read only through
  `lookupA`, `setA` and `eraseA`, which reproduce `Map.get`, `Map.set`
  (replace-in-place on an existing key, append otherwise — matching the
  insertion-order semantics of `Map`) and `Map.delete`.

  JavaScript numbers are embedded as exact rationals (`ℚ`).  A field that
  can be `undefined`/`NaN` is embedded as `Option ℚ`, `none` standing for
  the absent value; `jsAdd` reproduces the fact that arithmetic on an
  absent field yields `NaN` (`none`), which compares unequal to every
  number.
-/

namespace SolSight

/-- Association-list lookup, mirroring JavaScript `Map.prototype.get`. -/
def lookupA {α β : Type} [DecidableEq α] : List (α × β) → α → Option β
  | [], _ => none
  | (k, v) :: rest, a => if k = a then some v else lookupA rest a

/-- Association-list update, mirroring `Map.prototype.set`: replaces the
entry in place when the key exists, appends otherwise. -/
def setA {α β : Type} [DecidableEq α] : List (α × β) → α → β → List (α × β)
  | [], a, b => [(a, b)]
  | (k, v) :: rest, a, b => if k = a then (a, b) :: rest else (k, v) :: setA rest a b

/-- Association-list removal, mirroring `Map.prototype.delete`. -/
def eraseA {α β : Type} [DecidableEq α] : List (α × β) → α → List (α × β)
  | [], _ => []
  | (k, v) :: rest, a => if k = a then rest else (k, v) :: eraseA rest a

/-- JavaScript addition where either operand may be absent (`undefined`);
`undefined + x` is `NaN`, embedded as `none`. -/
def jsAdd (a b : Option ℚ) : Option ℚ :=
  match a, b with
  | some x, some y => some (x + y)
  | _, _ => none

/-- JavaScript `value || fallback` for an optional string: the fallback is
used when the value is absent or the empty string (falsy). -/
def jsOr (o : Option String) (d : String) : String :=
  match o with
  | some r => if r = "" then d else r
  | none => d

/-! ### Server configuration (backend/src/config/server.js)

Reward amounts and matching weights, embedded as exact rationals. -/

structure RewardsConfig where
  shortCall : ℚ
  mediumCall : ℚ
  longCall : ℚ
  perfectRating : ℚ
  quickResponse : ℚ
  calls10 : ℚ
  calls50 : ℚ
  calls100 : ℚ
  calls500 : ℚ
  calls1000 : ℚ
deriving DecidableEq

def rewards : RewardsConfig :=
  { shortCall := mkRat 1 100
    mediumCall := mkRat 25 1000
    longCall := mkRat 5 100
    perfectRating := mkRat 5 1000
    quickResponse := mkRat 3 1000
    calls10 := mkRat 1 10
    calls50 := mkRat 1 2
    calls100 := 1
    calls500 := 5
    calls1000 := 10 }

def reputationWeight : ℚ := mkRat 1 10

/-- `config.matching.maxWaitTime`: two minutes, in milliseconds. -/
def maxWaitTime : ℚ := 120000

/-! ### Database records

User records live in Firestore (backend/src/config/database.js); the fields
below are the ones the matching engine and the reward queue read.  The
statistics fields are `Option ℚ` because the code can store `NaN` into them
(see `processCompletedCall`), and `NaN`/absent compares unequal to every
number. -/

structure User where
  userType : String
  walletAddress : Option String
  totalCalls : Option ℚ
  totalHelpMinutes : Option ℚ
  reputationScore : Option ℚ
deriving DecidableEq

/-! ### Matching engine (backend/src/app.js, MatchingService) -/

/-- A volunteer record as returned by `getActiveVolunteers`, restricted to
the fields `calculateVolunteerScore` reads.  `averageResponseTime` is
optional because the code guards it with a truthiness test. -/
structure Volunteer where
  id : String
  reputationScore : ℚ
  skills : List String
  averageResponseTime : Option ℚ
  isOnline : Bool
deriving DecidableEq

/-- `MatchingService.calculateVolunteerScore`.  The service keeps two
in-memory maps, `volunteerLastCall` (volunteer id → last call timestamp,
ms) and `callCount` (volunteer id → calls today); `now` is `Date.now()`.
The JavaScript guard `averageResponseTime && averageResponseTime < 30000`
is falsy for an absent or zero value, and the final `Math.max(score, 0)`
clamps the result below at zero. -/
def calculateVolunteerScore (volunteerLastCall : List (String × ℚ))
    (callCount : List (String × ℕ)) (now : ℚ) (v : Volunteer)
    (helpCategory : String) : ℚ :=
  let s1 : ℚ := 0 + v.reputationScore * reputationWeight
  let lastCallTime : ℚ := (lookupA volunteerLastCall v.id).getD 0
  let idleHours : ℚ := (now - lastCallTime) / 3600000
  let s2 := s1 + min (idleHours * 2) 10
  let callCountToday : ℕ := (lookupA callCount v.id).getD 0
  let s3 := s2 - min ((callCountToday : ℚ) * 1) 5
  let s4 := if helpCategory ∈ v.skills then s3 + 10 else s3
  let s5 :=
    match v.averageResponseTime with
    | some t => if t ≠ 0 ∧ t < 30000 then s4 + 5 else s4
    | none => s4
  let s6 := if v.isOnline then s5 else s5 - 20
  max s6 0

/-- Modelled from the spec: the scoring formula as the specification words
it — reputation × 0.1 + min(idleHours × 2, 10) − min(callsToday × 1, 5)
+ (10 for a matching skill) + (5 for a fast recorded response history)
− (20 when offline) — with no clamp.  Used to compare the code against the
specified formula. -/
def scoreFormula (reputation idleHours : ℚ) (callsToday : ℕ)
    (hasSkill fastResponse isOnline : Bool) : ℚ :=
  reputation * reputationWeight + min (idleHours * 2) 10
    - min ((callsToday : ℚ) * 1) 5
    + (if hasSkill then 10 else 0)
    + (if fastResponse then 5 else 0)
    - (if isOnline then 0 else 20)

/-- The idle time used by the scoring code, in hours. -/
def idleHoursOf (volunteerLastCall : List (String × ℚ)) (now : ℚ)
    (volunteerId : String) : ℚ :=
  (now - (lookupA volunteerLastCall volunteerId).getD 0) / 3600000

/-- Whether the code grants the fast-response bonus: a recorded (truthy,
hence nonzero) average response time below 30 seconds. -/
def fastResponseOf (v : Volunteer) : Bool :=
  match v.averageResponseTime with
  | some t => decide (t ≠ 0 ∧ t < 30000)
  | none => false

inductive MatchError
  | notFound
  | noVolunteersAvailable
  | noSuitableVolunteers
  | timeout
  | notAuthorized
deriving DecidableEq

/-- The element `scoredVolunteers[0]` after the descending stable sort in
`findBestMatch`: the first candidate among those with maximal score
(a strictly greater score is needed to displace the current best). -/
def selectBest : List (Volunteer × ℚ) → Option (Volunteer × ℚ)
  | [] => none
  | x :: xs => some (xs.foldl (fun b y => if b.2 < y.2 then y else b) x)

/-- `MatchingService.findBestMatch`.  Looks up the requesting user, fetches
the available volunteers (supplied here as `volunteers`, the result of
`getActiveVolunteers`), scores them and picks the best; an empty candidate
list fails with `noVolunteersAvailable`, a non-positive best score with
`noSuitableVolunteers`. -/
def findBestMatch (users : List (String × User)) (volunteers : List Volunteer)
    (volunteerLastCall : List (String × ℚ)) (callCount : List (String × ℕ))
    (now : ℚ) (blindUserId helpCategory : String) : Except MatchError Volunteer :=
  match lookupA users blindUserId with
  | none => Except.error MatchError.notFound
  | some u =>
    if u.userType ≠ "blind" then Except.error MatchError.notFound
    else if volunteers.isEmpty then Except.error MatchError.noVolunteersAvailable
    else
      let scored := volunteers.map
        (fun v => (v, calculateVolunteerScore volunteerLastCall callCount now v helpCategory))
      match selectBest scored with
      | none => Except.error MatchError.noVolunteersAvailable
      | some best =>
        if best.2 ≤ 0 then Except.error MatchError.noSuitableVolunteers
        else Except.ok best.1

/-- Result of `attemptMatch`: the outcome together with the number of
2-second (`attemptDelay = 2000` ms) pauses the loop performed before
returning. -/
structure AttemptOutcome where
  result : Except MatchError Volunteer
  delays : ℕ

/-- The retry loop of `MatchingService.attemptMatch`: up to `maxAttempts = 3`
attempts; before each attempt the waiting entry's timeout deadline is
checked (`Date.now() > waitingInfo.timeout` fails with `timeout`); a failed
attempt other than the last sleeps 2000 ms and retries.  `fuel` counts the
attempts still allowed including the current one (`fuel = 0` is never
reached when started at `maxAttempts`), `attempt` is the 1-based attempt
index, and `volsAt attempt` is what `getActiveVolunteers` returns on that
attempt. -/
def attemptLoop (users : List (String × User)) (volsAt : ℕ → List Volunteer)
    (volunteerLastCall : List (String × ℚ)) (callCount : List (String × ℕ))
    (blindUserId helpCategory : String) (deadline : ℚ) :
    ℕ → ℕ → ℚ → AttemptOutcome
  | 0, _, _ => ⟨Except.error MatchError.timeout, 0⟩
  | Nat.succ fuel, attempt, now =>
    if deadline < now then ⟨Except.error MatchError.timeout, 0⟩
    else
      match findBestMatch users (volsAt attempt) volunteerLastCall callCount now
          blindUserId helpCategory with
      | Except.ok v => ⟨Except.ok v, 0⟩
      | Except.error e =>
        if fuel = 0 then ⟨Except.error e, 0⟩
        else
          let r := attemptLoop users volsAt volunteerLastCall callCount blindUserId
            helpCategory deadline fuel (attempt + 1) (now + 2000)
          ⟨r.result, r.delays + 1⟩

/-- `MatchingService.attemptMatch`, entered from `startMatching` with
`maxAttempts = 3` starting at attempt 1. -/
def attemptMatch (users : List (String × User)) (volsAt : ℕ → List Volunteer)
    (volunteerLastCall : List (String × ℚ)) (callCount : List (String × ℕ))
    (blindUserId helpCategory : String) (now deadline : ℚ) : AttemptOutcome :=
  attemptLoop users volsAt volunteerLastCall callCount blindUserId helpCategory
    deadline 3 1 now

/-! ### Matching engine state and `declineMatch` -/

/-- A `waitingQueue` entry (`userId -> waiting info`). -/
structure WaitingInfo where
  userId : String
  helpCategory : String
  priority : ℚ
  startTime : ℚ
  timeout : ℚ
  status : String
deriving DecidableEq

/-- An `activeMatches` entry (`roomId -> match info`). -/
structure MatchInfo where
  callId : String
  blindUserId : String
  volunteerUserId : String
  roomId : String
  status : String
  matchedAt : ℚ
deriving DecidableEq

/-- An `updateCall(callId, ...)` request issued to the call store.  The
signaling relay issues updates through `room.callId`, a field it never
populates, hence the `Option`. -/
structure CallUpdate where
  callId : Option String
  status : String
  feedbackText : String
deriving DecidableEq

/-- The mutable maps of `MatchingService`. -/
structure MatchingState where
  waitingQueue : List (String × WaitingInfo)
  activeMatches : List (String × MatchInfo)
deriving DecidableEq

/-- What `declineMatch` returns and the side effects it issues:
call-store updates, `setVolunteerAvailability` requests, and the
fire-and-forget rematch task it spawns (the un-awaited `attemptMatch`
invocation, whose eventual failure is only logged). -/
structure DeclineOutcome where
  result : Except MatchError Bool
  state : MatchingState
  callUpdates : List CallUpdate
  availabilitySets : List (String × Bool)
  rematchTask : Option WaitingInfo

/-- `MatchingService.declineMatch`.  Looks up the active match for the
room, authorizes the volunteer, makes the volunteer available again,
marks the call failed, removes the match, and spawns a rematch attempt for
the blind user with a fresh waiting info whose timeout is one minute away
— without inserting that waiting info into `waitingQueue`.  The returned
result is produced before the spawned rematch runs. -/
def declineMatch (s : MatchingState) (now : ℚ)
    (roomId volunteerId reason : String) : DeclineOutcome :=
  match lookupA s.activeMatches roomId with
  | none => ⟨Except.error MatchError.notFound, s, [], [], none⟩
  | some m =>
    if m.volunteerUserId ≠ volunteerId then
      ⟨Except.error MatchError.notAuthorized, s, [], [], none⟩
    else
      let waitingInfo : WaitingInfo :=
        { userId := m.blindUserId
          helpCategory := "general"
          priority := 5
          startTime := now
          timeout := now + 60000
          status := "rematching" }
      { result := Except.ok true
        state := { s with activeMatches := eraseA s.activeMatches roomId }
        callUpdates := [⟨some m.callId, "failed", reason⟩]
        availabilitySets := [(volunteerId, true)]
        rematchTask := some waitingInfo }

/-! ### WebRTC signaling relay (WebRTCService)

The relay keeps `rooms : Map roomId -> room` and
`connections : Map connectionId -> connection info`.  A room object is
created by `handleJoinRoom` with fields `id`, `participants`, `createdAt`
and `status` only; the `room.callId` the service later reads when
updating the call store is never assigned anywhere, so it is embedded as
an `Option String` that room creation leaves at `none`.  Heartbeat timing
(`connectedAt`, `isAlive`, the 30-second ping interval) is real-time
behavior and is not embedded; a missed heartbeat terminates the socket,
which reaches the relay as the same `handleDisconnection` call as a
transport close. -/

structure Participant where
  connectionId : ℕ
  userId : String
  userType : String
  isReady : Bool
deriving DecidableEq

structure Room where
  participants : List (String × Participant)
  status : String
  callId : Option String
deriving DecidableEq

structure ConnInfo where
  userId : Option String
  userType : Option String
  roomId : Option String
deriving DecidableEq

structure WState where
  rooms : List (String × Room)
  connections : List (ℕ × ConnInfo)
  connectionCounter : ℕ
deriving DecidableEq

/-- Messages the relay sends to connections (the payload fields the
claims are about; the `participants` echo arrays of `user_joined` and
`room_joined` are omitted). -/
inductive WMsg
  | connected (connectionId : ℕ)
  | userJoined (userId userType roomStatus : String)
  | roomJoined (roomId roomStatus : String)
  | userLeft (userId : String) (remainingParticipants : ℕ)
  | roomLeft (roomId : String)
  | userDisconnected (userId userType : Option String) (reason : String)
  | callStatusMsg (status : String) (reason : Option String) (updatedBy : Option String)
  | errorMsg (text : String)
deriving DecidableEq

/-- A handler's result: the new service state, the messages it sent
(receiver connection id paired with the message) and the `updateCall`
requests it issued. -/
structure WOut where
  state : WState
  msgs : List (ℕ × WMsg)
  updates : List CallUpdate

/-- `broadcastToRoom`: sends the message to every room participant whose
connection id differs from the excluded one. -/
def broadcastRoom (parts : List (String × Participant)) (excludeConnectionId : ℕ)
    (m : WMsg) : List (ℕ × WMsg) :=
  (parts.filter (fun p => p.2.connectionId ≠ excludeConnectionId)).map
    (fun p => (p.2.connectionId, m))

def winit : WState := ⟨[], [], 0⟩

/-- `WebRTCService.handleConnection`: allocates the next connection id and
registers a connection with no user or room, replying `connected`. -/
def handleConnection (s : WState) : WOut :=
  let connectionId := s.connectionCounter + 1
  { state :=
      { rooms := s.rooms
        connections := setA s.connections connectionId ⟨none, none, none⟩
        connectionCounter := connectionId }
    msgs := [(connectionId, WMsg.connected connectionId)]
    updates := [] }

/-- `WebRTCService.handleLeaveRoom`: removes the caller from its room,
broadcasts `user_left` to the remaining participants, deletes the room if
it became empty and otherwise reverts its status to `waiting`, clears the
connection's room, and confirms with `room_left`.  A connection that is
not in a room returns silently. -/
def handleLeaveRoom (s : WState) (connectionId : ℕ) : WOut :=
  match lookupA s.connections connectionId with
  | none => ⟨s, [], []⟩
  | some ci =>
    match ci.roomId with
    | none => ⟨s, [], []⟩
    | some roomId =>
      let roomsMsgs : List (String × Room) × List (ℕ × WMsg) :=
        match lookupA s.rooms roomId with
        | none => (s.rooms, [])
        | some room =>
          let parts :=
            match ci.userId with
            | some uid => eraseA room.participants uid
            | none => room.participants
          let msgs := broadcastRoom parts connectionId
            (WMsg.userLeft (ci.userId.getD "null") parts.length)
          if parts.isEmpty then (eraseA s.rooms roomId, msgs)
          else (setA s.rooms roomId { room with participants := parts, status := "waiting" }, msgs)
      { state :=
          { rooms := roomsMsgs.1
            connections := setA s.connections connectionId { ci with roomId := none }
            connectionCounter := s.connectionCounter }
        msgs := roomsMsgs.2 ++ [(connectionId, WMsg.roomLeft roomId)]
        updates := [] }

/-- `WebRTCService.handleJoinRoom`: validates the payload (all three
fields truthy, `userType` one of `blind`/`volunteer`), leaves the current
room first when the connection already is in one, creates the room if
absent (status `waiting`, no participants, no call id), inserts the
participant keyed by user id, marks the room `ready` when it then has
exactly two participants, records user/room on the connection, and
broadcasts `user_joined` before confirming `room_joined`.  No check
bounds the number of participants. -/
def handleJoinRoom (s : WState) (connectionId : ℕ)
    (roomId userId userType : String) : WOut :=
  match lookupA s.connections connectionId with
  | none => ⟨s, [(connectionId, WMsg.errorMsg "Failed to join room")], []⟩
  | some ci =>
    if roomId = "" ∨ userId = "" ∨ userType = "" then
      ⟨s, [(connectionId, WMsg.errorMsg "Failed to join room")], []⟩
    else if userType ≠ "blind" ∧ userType ≠ "volunteer" then
      ⟨s, [(connectionId, WMsg.errorMsg "Failed to join room")], []⟩
    else
      let leave : WOut :=
        match ci.roomId with
        | some _ => handleLeaveRoom s connectionId
        | none => ⟨s, [], []⟩
      let s1 := leave.state
      let room :=
        match lookupA s1.rooms roomId with
        | some r => r
        | none => ⟨[], "waiting", none⟩
      let participant : Participant := ⟨connectionId, userId, userType, false⟩
      let room1 := { room with participants := setA room.participants userId participant }
      let room2 :=
        if room1.participants.length = 2 then { room1 with status := "ready" } else room1
      let s2 : WState :=
        { rooms := setA s1.rooms roomId room2
          connections := setA s1.connections connectionId
            ⟨some userId, some userType, some roomId⟩
          connectionCounter := s1.connectionCounter }
      { state := s2
        msgs := leave.msgs
          ++ broadcastRoom room2.participants connectionId
              (WMsg.userJoined userId userType room2.status)
          ++ [(connectionId, WMsg.roomJoined roomId room2.status)]
        updates := [] }

/-- `WebRTCService.handleCallStatus`: requires the connection to be in a
room and a truthy `status`; sets the room's status to the given string;
when the status is terminal (`completed`, `failed` or `ended`) issues an
`updateCall` on `room.callId` mapping `completed` to `completed` and every
other terminal status to `failed` (with `reason || 'Call ended via
WebRTC'` as feedback); finally broadcasts the status to the other
participants.  When the connection's room id points to a room no longer in
the map, the JavaScript dereference of `room.status` throws and the outer
handler replies with an error message instead. -/
def handleCallStatus (s : WState) (connectionId : ℕ)
    (status : Option String) (reason : Option String) : WOut :=
  match lookupA s.connections connectionId with
  | none => ⟨s, [], []⟩
  | some ci =>
    match ci.roomId with
    | none => ⟨s, [(connectionId, WMsg.errorMsg "Failed to update call status")], []⟩
    | some roomId =>
      match status with
      | none => ⟨s, [(connectionId, WMsg.errorMsg "Failed to update call status")], []⟩
      | some st =>
        if st = "" then
          ⟨s, [(connectionId, WMsg.errorMsg "Failed to update call status")], []⟩
        else
          match lookupA s.rooms roomId with
          | none => ⟨s, [(connectionId, WMsg.errorMsg "Failed to update call status")], []⟩
          | some room =>
            let room1 := { room with status := st }
            let updates : List CallUpdate :=
              if st = "completed" ∨ st = "failed" ∨ st = "ended" then
                [⟨room.callId, if st = "completed" then "completed" else "failed",
                  jsOr reason "Call ended via WebRTC"⟩]
              else []
            { state :=
                { rooms := setA s.rooms roomId room1
                  connections := s.connections
                  connectionCounter := s.connectionCounter }
              msgs := broadcastRoom room1.participants connectionId
                (WMsg.callStatusMsg st reason ci.userId)
              updates := updates }

/-- `WebRTCService.handleDisconnection` (transport close or heartbeat
timeout).  Removes the participant from its room, broadcasts
`user_disconnected` to the remaining participants, deletes the room when
it became empty and otherwise reverts its status to `waiting`; then — on
the very same room object, whose status was just overwritten in the
non-empty case — checks for `active`/`connected` status and issues the
call-failed update only when that check passes; finally drops the
connection. -/
def handleDisconnection (s : WState) (connectionId : ℕ) : WOut :=
  match lookupA s.connections connectionId with
  | none => ⟨s, [], []⟩
  | some ci =>
    let roomPart : List (String × Room) × List (ℕ × WMsg) × List CallUpdate :=
      match ci.roomId with
      | none => (s.rooms, [], [])
      | some roomId =>
        match lookupA s.rooms roomId with
        | none => (s.rooms, [], [])
        | some room =>
          let parts :=
            match ci.userId with
            | some uid => eraseA room.participants uid
            | none => room.participants
          let msgs := broadcastRoom parts connectionId
            (WMsg.userDisconnected ci.userId ci.userType "Connection lost")
          let roomsStatus : List (String × Room) × String :=
            if parts.isEmpty then (eraseA s.rooms roomId, room.status)
            else (setA s.rooms roomId { room with participants := parts, status := "waiting" },
                  "waiting")
          let updates : List CallUpdate :=
            if roomsStatus.2 = "active" ∨ roomsStatus.2 = "connected" then
              [⟨room.callId, "failed",
                "User " ++ ci.userId.getD "null" ++ " disconnected"⟩]
            else []
          (roomsStatus.1, msgs, updates)
    { state :=
        { rooms := roomPart.1
          connections := eraseA s.connections connectionId
          connectionCounter := s.connectionCounter }
      msgs := roomPart.2.1
      updates := roomPart.2.2 }

/-- The relay's externally driven events: a new transport connection, a
transport close / heartbeat timeout, and the room-lifecycle messages.
The pure relaying handlers (`offer`, `answer`, `ice_candidate`) do not
modify the state and are omitted from the step alphabet. -/
inductive WOp
  | connect
  | disconnect (connectionId : ℕ)
  | join (connectionId : ℕ) (roomId userId userType : String)
  | leave (connectionId : ℕ)
  | callStatus (connectionId : ℕ) (status reason : Option String)

def applyW (s : WState) : WOp → WState
  | WOp.connect => (handleConnection s).state
  | WOp.disconnect c => (handleDisconnection s c).state
  | WOp.join c r u t => (handleJoinRoom s c r u t).state
  | WOp.leave c => (handleLeaveRoom s c).state
  | WOp.callStatus c st r => (handleCallStatus s c st r).state

def applyWOps (s : WState) (ops : List WOp) : WState :=
  ops.foldl applyW s

/-- A relay state reachable from the empty initial state through the
modeled events. -/
def WReachable (s : WState) : Prop :=
  ∃ ops : List WOp, applyWOps winit ops = s

/-! ### Reward transaction queue (BlockchainService)

`transactionQueue` is an array used FIFO (`push`/`shift`); the terminal
`failedTransactions` map is embedded as a list of transactions (its keys,
the generated transaction ids, are unique).  Completed transactions are
recorded in the `transactions`/`rewards` collections; the `completed` list
below is that record.  Transaction ids (`reward_<timestamp>_<random>`) are
embedded as a fresh counter.  The consumer loop processes one queue head
per step; the outcome of the external ledger interaction (balance check
and `sendSOL`) is an oracle supplied with each step. -/

structure RewardTx where
  id : ℕ
  userId : String
  walletAddress : String
  amount : ℚ
  reason : String
  callId : Option String
  type : String
  status : String
  retryCount : ℕ
deriving DecidableEq

structure RState where
  users : List (String × User)
  transactionQueue : List RewardTx
  failedTransactions : List RewardTx
  completed : List RewardTx
  nextId : ℕ
deriving DecidableEq

def qinit (users : List (String × User)) : RState := ⟨users, [], [], [], 0⟩

def maxRetries : ℕ := 3

inductive QErr
  | notFound
  | noWallet
  | invalidWallet
  | invalidAmount
  | callNotFound
  | notCompleted
deriving DecidableEq

/-- `BlockchainService.queueRewardTransaction`: validates that the user
exists and has a (truthy) wallet address passing `validateWalletAddress`
(the Solana public-key parse, supplied as the predicate `validWallet`),
and that the amount is positive; then appends a fresh `queued` transaction
with retry count 0 and kicks the consumer (processing is modeled as
separate steps). -/
def queueRewardTransaction (validWallet : String → Bool) (s : RState)
    (userId : String) (amount : ℚ) (reason : String) (callId : Option String)
    (type : String) : Except QErr ℕ × RState :=
  match lookupA s.users userId with
  | none => (Except.error QErr.notFound, s)
  | some u =>
    match u.walletAddress with
    | none => (Except.error QErr.noWallet, s)
    | some w =>
      if w = "" then (Except.error QErr.noWallet, s)
      else if ¬ validWallet w then (Except.error QErr.invalidWallet, s)
      else if amount ≤ 0 then (Except.error QErr.invalidAmount, s)
      else
        let tx : RewardTx :=
          { id := s.nextId, userId := userId, walletAddress := w, amount := amount
            reason := reason, callId := callId, type := type, status := "queued"
            retryCount := 0 }
        (Except.ok tx.id,
          { s with transactionQueue := s.transactionQueue ++ [tx], nextId := s.nextId + 1 })

/-- The outcome of one consumer-loop iteration's external interaction:
the funding balance was below `amount + 0.002`, or `sendSOL` succeeded,
or `sendSOL` (or another awaited call) threw. -/
inductive Outcome
  | insufficientBalance
  | sendOk
  | sendErr
deriving DecidableEq

/-- One iteration of the `processTransactionQueue` while-loop: pops the
queue head; on an insufficient funding balance or a submission error
increments the retry count and re-queues at the tail while the count is
still below `maxRetries`, otherwise moves the transaction to the terminal
failed set; on success marks it completed and records it.  An empty queue
leaves the state unchanged (the loop exits). -/
def processOne (s : RState) (o : Outcome) : RState :=
  match s.transactionQueue with
  | [] => s
  | tx :: rest =>
    match o with
    | Outcome.sendOk =>
      { s with transactionQueue := rest
               completed := { tx with status := "completed" } :: s.completed }
    | _ =>
      let tx1 := { tx with retryCount := tx.retryCount + 1 }
      if tx.retryCount + 1 < maxRetries then
        { s with transactionQueue := rest ++ [tx1] }
      else
        { s with transactionQueue := rest
                 failedTransactions := tx1 :: s.failedTransactions }

/-- `BlockchainService.retryFailedTransactions`: moves every failed
transaction whose retry count is below `maxRetries` back onto the live
queue with its retry count reset to 0, and returns how many it moved. -/
def retryFailedTransactions (s : RState) : ℕ × RState :=
  let retryable := s.failedTransactions.filter (fun tx => tx.retryCount < maxRetries)
  (retryable.length,
    { s with
        failedTransactions :=
          s.failedTransactions.filter (fun tx => ¬ tx.retryCount < maxRetries)
        transactionQueue := s.transactionQueue ++ retryable.map
          (fun tx => { tx with retryCount := 0 }) })

/-- A call record as read back from the `calls` collection by
`processCompletedCall`.  The last three fields are read by that function
even though no call-creation path ever writes them, so they default to
absent. -/
structure CallRec where
  id : String
  status : String
  blindUserId : String
  volunteerUserId : String
  durationSeconds : ℚ
  rating : Option ℚ
  responseTimeMs : Option ℚ
  totalCalls : Option ℚ := none
  totalHelpMinutes : Option ℚ := none
  reputationScore : Option ℚ := none
deriving DecidableEq

/-- `BlockchainService.calculateRewardAmount`: duration-tiered base
reward plus the perfect-rating and quick-response bonuses.  The
quick-response guard `responseTimeMs && responseTimeMs < 30000` is falsy
for an absent or zero value. -/
def calculateRewardAmount (c : CallRec) : ℚ :=
  let base :=
    if c.durationSeconds ≤ 1800 then rewards.shortCall
    else if c.durationSeconds ≤ 3600 then rewards.mediumCall
    else rewards.longCall
  let withRating := if c.rating = some 5 then base + rewards.perfectRating else base
  match c.responseTimeMs with
  | some t => if t ≠ 0 ∧ t < 30000 then withRating + rewards.quickResponse else withRating
  | none => withRating

/-- `BlockchainService.calculateMilestoneReward`: reads the user's
`totalCalls` and pays a milestone bonus exactly when it equals one of the
thresholds 10/50/100/500/1000.  A missing user or a non-volunteer yields
no reward. -/
def calculateMilestoneReward (users : List (String × User)) (userId : String) :
    ℚ × String :=
  match lookupA users userId with
  | none => (0, "")
  | some u =>
    if u.userType ≠ "volunteer" then (0, "")
    else if u.totalCalls = some 10 then (rewards.calls10, "10 calls milestone")
    else if u.totalCalls = some 50 then (rewards.calls50, "50 calls milestone")
    else if u.totalCalls = some 100 then (rewards.calls100, "100 calls milestone")
    else if u.totalCalls = some 500 then (rewards.calls500, "500 calls milestone")
    else if u.totalCalls = some 1000 then (rewards.calls1000, "1000 calls milestone")
    else (0, "")

/-- `updateUser` against the users collection: fails when the document is
missing, otherwise applies the field changes. -/
def updateUserIn (users : List (String × User)) (userId : String)
    (f : User → User) : Except QErr (List (String × User)) :=
  match lookupA users userId with
  | none => Except.error QErr.notFound
  | some u => Except.ok (setA users userId (f u))

/-- The trailing statistics updates of `processCompletedCall`: the
volunteer's stored counters are set to `callData.totalCalls + 1` and
`callData.totalHelpMinutes + Math.ceil(durationSeconds / 60)` — fields of
the call record, which call creation never writes, so the stored counters
become `NaN` — and then `updateUserReputation` stores
`callData.reputationScore + 10` (again `NaN`) after checking that the
user exists and has a wallet. -/
def updateVolunteerStats (s : RState) (c : CallRec) : Except QErr Unit × RState :=
  match updateUserIn s.users c.volunteerUserId (fun u =>
      { u with
          totalCalls := jsAdd c.totalCalls (some 1)
          totalHelpMinutes := jsAdd c.totalHelpMinutes (some ⌈c.durationSeconds / 60⌉) }) with
  | Except.error e => (Except.error e, s)
  | Except.ok users3 =>
    let s3 := { s with users := users3 }
    match lookupA s3.users c.volunteerUserId with
    | none => (Except.error QErr.notFound, s3)
    | some u =>
      match u.walletAddress with
      | none => (Except.error QErr.noWallet, s3)
      | some w =>
        if w = "" then (Except.error QErr.noWallet, s3)
        else
          match updateUserIn s3.users c.volunteerUserId (fun u =>
              { u with reputationScore := jsAdd c.reputationScore (some 10) }) with
          | Except.error e => (Except.error e, s3)
          | Except.ok users4 => (Except.ok (), { s3 with users := users4 })

/-- `BlockchainService.processCompletedCall`.  Requires the call to exist
and be `completed`; queues the call-completion reward; queues a milestone
reward when `calculateMilestoneReward` (computed from the user's current
`totalCalls`, before any increment) is positive; then runs the
statistics/reputation updates of `updateVolunteerStats`.  State changes
made before a thrown error persist, as the service state is
process-global. -/
def processCompletedCall (validWallet : String → Bool) (s : RState)
    (c : CallRec) : Except QErr (ℚ × ℚ) × RState :=
  if c.status ≠ "completed" then (Except.error QErr.notCompleted, s)
  else
    let rewardAmount := calculateRewardAmount c
    let reason1 := "Completed " ++ toString ⌈c.durationSeconds / 60⌉ ++ "-minute call"
    match queueRewardTransaction validWallet s c.volunteerUserId rewardAmount reason1
        (some c.id) "call_completion" with
    | (Except.error e, s1) => (Except.error e, s1)
    | (Except.ok _, s1) =>
      let milestone := calculateMilestoneReward s1.users c.volunteerUserId
      let afterMilestone : Except QErr Unit × RState :=
        if 0 < milestone.1 then
          match queueRewardTransaction validWallet s1 c.volunteerUserId milestone.1
              milestone.2 (some c.id) "milestone" with
          | (Except.error e, s2) => (Except.error e, s2)
          | (Except.ok _, s2) => (Except.ok (), s2)
        else (Except.ok (), s1)
      match afterMilestone with
      | (Except.error e, s2) => (Except.error e, s2)
      | (Except.ok _, s2) =>
        match updateVolunteerStats s2 c with
        | (Except.error e, s3) => (Except.error e, s3)
        | (Except.ok _, s3) => (Except.ok (rewardAmount, milestone.1), s3)

/-- The reward queue's externally driven events: a reward explicitly
queued (the rewards/admin routes call `queueRewardTransaction` directly),
a completed call processed (the call routes call `processCompletedCall`;
the call record read from the store is carried by the event), one
consumer-loop iteration with its ledger outcome, and a failed-transaction
retry sweep. -/
inductive QOp
  | queueReward (userId : String) (amount : ℚ) (reason : String)
      (callId : Option String) (type : String)
  | processCompleted (c : CallRec)
  | process (o : Outcome)
  | retryFailed

def applyQ (validWallet : String → Bool) (s : RState) : QOp → RState
  | QOp.queueReward userId amount reason callId type =>
    (queueRewardTransaction validWallet s userId amount reason callId type).2
  | QOp.processCompleted c => (processCompletedCall validWallet s c).2
  | QOp.process o => processOne s o
  | QOp.retryFailed => (retryFailedTransactions s).2

def applyQOps (validWallet : String → Bool) (s : RState) (ops : List QOp) : RState :=
  ops.foldl (applyQ validWallet) s

/-- A reward-queue state reachable from an initial user store through the
modeled events. -/
def QReachable (validWallet : String → Bool) (users : List (String × User))
    (s : RState) : Prop :=
  ∃ ops : List QOp, applyQOps validWallet (qinit users) ops = s

/-! ### Invariants under study -/

/-- The retry-ceiling invariant of the reward queue: live transactions
have retry counts strictly below `maxRetries`, transactions in the
terminal failed set sit exactly at `maxRetries`, and completed
transactions kept the count they had when they succeeded. -/
def QInv (s : RState) : Prop :=
  (∀ tx ∈ s.transactionQueue, tx.retryCount < maxRetries) ∧
  (∀ tx ∈ s.failedTransactions, tx.retryCount = maxRetries) ∧
  (∀ tx ∈ s.completed, tx.retryCount < maxRetries)

/-- A transaction-list-preserving step: the queue only grew by fresh
(zero-retry) transactions and the failed and completed records are
untouched.  Both `queueRewardTransaction` and `processCompletedCall`
take such steps. -/
def TxStep (s t : RState) : Prop :=
  (∀ tx ∈ t.transactionQueue, tx ∈ s.transactionQueue ∨ tx.retryCount = 0) ∧
  t.failedTransactions = s.failedTransactions ∧
  t.completed = s.completed

/-- The room-map invariant of the signaling relay: every room still in
the map has at least one participant (a room emptied by a removal is
deleted in the same synchronous step). -/
def WInv (s : WState) : Prop :=
  ∀ p ∈ s.rooms, (p.2 : Room).participants ≠ []

/-- Whether a reward transaction is a call-completion payout for the
given call. -/
def completionFor (cid : String) (tx : RewardTx) : Bool :=
  decide (tx.type = "call_completion" ∧ tx.callId = some cid)

/-- How many call-completion transactions for the given call a state
holds, across the live queue, the failed set and the completed record. -/
def completionCount (cid : String) (s : RState) : ℕ :=
  s.transactionQueue.countP (completionFor cid) +
    s.failedTransactions.countP (completionFor cid) +
    s.completed.countP (completionFor cid)

/-- How many call-completion transactions for the given call a single
event can create: one per `processCompletedCall` of that call and one per
explicit `queueRewardTransaction` with type `call_completion` aimed at
it. -/
def opCredit (cid : String) : QOp → ℕ
  | QOp.processCompleted c => if c.id = cid then 1 else 0
  | QOp.queueReward _ _ _ callId type =>
    if type = "call_completion" ∧ callId = some cid then 1 else 0
  | _ => 0

/-! ### Concrete scenario data used in the theorems -/

/-- A wallet validator accepting everything (a stand-in for the Solana
public-key parse on well-formed addresses). -/
def vwAll : String → Bool := fun _ => true

/-- The spec's scenario volunteer: reputation 100, matching skill,
online, no recorded response history. -/
def demoVolunteer : Volunteer := ⟨"v1", 100, ["reading"], none, true⟩

/-- An offline volunteer with nothing going for them: raw formula score
−20. -/
def offlineVolunteer : Volunteer := ⟨"v2", 0, [], none, false⟩

def uBlind : User := ⟨"blind", none, some 0, some 0, some 0⟩

def demoUsersB : List (String × User) := [("b", uBlind)]

/-- A freshly registered volunteer (registration writes
`totalCalls: 0`). -/
def uVol : User := ⟨"volunteer", some "W", some 0, some 0, some 0⟩

def demoUsers : List (String × User) := [("v", uVol)]

/-- The k-th completed 10-minute call of volunteer `v`; like every call
record the system creates, it carries no `totalCalls`,
`totalHelpMinutes` or `reputationScore` fields. -/
def callK (k : ℕ) : CallRec :=
  { id := "c" ++ toString k, status := "completed", blindUserId := "b"
    volunteerUserId := "v", durationSeconds := 600, rating := none
    responseTimeMs := none }

/-- Eleven successive completed calls of the same volunteer, each
processed exactly once. -/
def ops11 : List QOp := (List.range 11).map (fun k => QOp.processCompleted (callK (k + 1)))

def s11 : RState := applyQOps vwAll (qinit demoUsers) ops11

/-- The same completed call processed twice, each payout succeeding. -/
def c5ops : List QOp :=
  [QOp.processCompleted (callK 1), QOp.process Outcome.sendOk,
   QOp.processCompleted (callK 1), QOp.process Outcome.sendOk]

def s5 : RState := applyQOps vwAll (qinit demoUsers) c5ops

/-- A single processing of call `c1`, its payout succeeding. -/
def c5wOps : List QOp := [QOp.processCompleted (callK 1), QOp.process Outcome.sendOk]

/-- One queued reward whose submission fails three times, exhausting its
retries. -/
def c9ops : List QOp :=
  [QOp.queueReward "v" 1 "r" none "call_completion",
   QOp.process Outcome.sendErr, QOp.process Outcome.sendErr, QOp.process Outcome.sendErr]

def s9 : RState := applyQOps vwAll (qinit demoUsers) c9ops

/-- One queued reward whose submission failed once so far. -/
def w7ops : List QOp :=
  [QOp.queueReward "v" 1 "r" none "call_completion", QOp.process Outcome.sendErr]

def sW7 : RState := applyQOps vwAll (qinit demoUsers) w7ops

/-- The transaction sitting in `sW7`'s queue. -/
def txW7 : RewardTx :=
  { id := 0, userId := "v", walletAddress := "W", amount := 1, reason := "r"
    callId := none, type := "call_completion", status := "queued", retryCount := 1 }

/-- Three distinct users joining the same room on three connections. -/
def c4ops : List WOp :=
  [WOp.connect, WOp.join 1 "r" "u1" "blind", WOp.connect,
   WOp.join 2 "r" "u2" "volunteer", WOp.connect, WOp.join 3 "r" "u3" "volunteer"]

def w4ops : List WOp := [WOp.connect, WOp.join 1 "r" "u1" "blind"]

def sW4 : WState := applyWOps winit w4ops

def roomW4 : Room := ⟨[("u1", ⟨1, "u1", "blind", false⟩)], "waiting", none⟩

/-- A room with two participants whose status a `call_status` message has
set to `active`, about to lose participant `u1`. -/
def c1ops : List WOp :=
  [WOp.connect, WOp.join 1 "r" "u1" "blind", WOp.connect,
   WOp.join 2 "r" "u2" "volunteer", WOp.callStatus 1 (some "active") none]

def sC1 : WState := applyWOps winit c1ops

def roomC1 : Room :=
  ⟨[("u1", ⟨1, "u1", "blind", false⟩), ("u2", ⟨2, "u2", "volunteer", false⟩)],
    "active", none⟩

/-- Connection 1's info inside `sC1`. -/
def ciC1 : ConnInfo := ⟨some "u1", some "blind", some "r"⟩

/-- An active match of volunteer `v` with blind user `b` in room `r`. -/
def m8 : MatchInfo := ⟨"call1", "b", "v", "r", "matched", 0⟩

def s8 : MatchingState := ⟨[], [("r", m8)]⟩

/-! ## Theorems

General facts about the association-list primitives, then the inductive
invariants, then the claims. -/

theorem mem_setA {α β : Type} [DecidableEq α] (l : List (α × β)) (a : α) (b : β)
    (p : α × β) (hp : p ∈ setA l a b) : p = (a, b) ∨ p ∈ l := by
  induction l with
  | nil =>
    simp only [setA, List.mem_singleton] at hp
    exact Or.inl hp
  | cons hd tl ih =>
    simp only [setA] at hp
    by_cases h : hd.1 = a
    · rw [if_pos h] at hp
      rcases List.mem_cons.mp hp with h1 | h1
      · exact Or.inl h1
      · exact Or.inr (List.mem_cons_of_mem _ h1)
    · rw [if_neg h] at hp
      rcases List.mem_cons.mp hp with h1 | h1
      · exact Or.inr (h1 ▸ List.mem_cons_self _ _)
      · rcases ih h1 with h2 | h2
        · exact Or.inl h2
        · exact Or.inr (List.mem_cons_of_mem _ h2)

theorem setA_ne_nil {α β : Type} [DecidableEq α] (l : List (α × β)) (a : α) (b : β) :
    setA l a b ≠ [] := by
  cases l with
  | nil => simp [setA]
  | cons hd tl =>
    simp only [setA]
    by_cases h : hd.1 = a
    · rw [if_pos h]; exact List.cons_ne_nil _ _
    · rw [if_neg h]; exact List.cons_ne_nil _ _

theorem mem_eraseA {α β : Type} [DecidableEq α] (l : List (α × β)) (a : α)
    (p : α × β) (hp : p ∈ eraseA l a) : p ∈ l := by
  induction l with
  | nil => simp [eraseA] at hp
  | cons hd tl ih =>
    simp only [eraseA] at hp
    by_cases h : hd.1 = a
    · rw [if_pos h] at hp
      exact List.mem_cons_of_mem _ hp
    · rw [if_neg h] at hp
      rcases List.mem_cons.mp hp with h1 | h1
      · exact h1 ▸ List.mem_cons_self _ _
      · exact List.mem_cons_of_mem _ (ih h1)

theorem lookupA_mem {α β : Type} [DecidableEq α] (l : List (α × β)) (a : α) (b : β)
    (h : lookupA l a = some b) : (a, b) ∈ l := by
  induction l with
  | nil => simp [lookupA] at h
  | cons hd tl ih =>
    simp only [lookupA] at h
    by_cases hk : hd.1 = a
    · rw [if_pos hk] at h
      have : hd = (a, b) := by
        cases hd; cases hk; cases h; rfl
      exact this ▸ List.mem_cons_self _ _
    · rw [if_neg hk] at h
      exact List.mem_cons_of_mem _ (ih h)

theorem countP_filter_split {α : Type} (p q : α → Bool) (l : List α) :
    List.countP p (l.filter q) + List.countP p (l.filter (fun a => !(q a))) =
      List.countP p l := by
  induction l with
  | nil => simp
  | cons hd tl ih =>
    by_cases hq : q hd
    · by_cases hp : p hd <;>
        · simp [List.filter_cons, List.countP_cons, hq, hp, ← ih]
          try omega
    · by_cases hp : p hd <;>
        · simp [List.filter_cons, List.countP_cons, hq, hp, ← ih]
          try omega

/-! ### The reward queue's step behavior -/

/-- `queueRewardTransaction` either rejects (leaving the state untouched)
or appends exactly one fresh `queued` transaction carrying the requested
call id and type. -/
theorem qrt_state (vw : String → Bool) (s : RState) (userId : String) (amount : ℚ)
    (reason : String) (callId : Option String) (type : String) :
    (∃ e : QErr, queueRewardTransaction vw s userId amount reason callId type =
        (Except.error e, s)) ∨
    ∃ w : String,
      queueRewardTransaction vw s userId amount reason callId type =
        (Except.ok s.nextId,
          { s with
              transactionQueue := s.transactionQueue ++
                [{ id := s.nextId, userId := userId, walletAddress := w
                   amount := amount, reason := reason, callId := callId
                   type := type, status := "queued", retryCount := 0 }]
              nextId := s.nextId + 1 }) := by
  unfold queueRewardTransaction
  rcases hu : lookupA s.users userId with _ | u
  · exact Or.inl ⟨QErr.notFound, by simp [hu]⟩
  · rcases hw : u.walletAddress with _ | w
    · exact Or.inl ⟨QErr.noWallet, by simp [hu, hw]⟩
    · by_cases h1 : w = ""
      · exact Or.inl ⟨QErr.noWallet, by simp [hu, hw, h1]⟩
      · by_cases h2 : vw w
        · by_cases h3 : amount ≤ 0
          · exact Or.inl ⟨QErr.invalidAmount, by simp [hu, hw, h1, h2, h3]⟩
          · refine Or.inr ⟨w, ?_⟩
            simp [hu, hw, h1, h2, h3]
        · exact Or.inl ⟨QErr.invalidWallet, by simp [hu, hw, h1, h2]⟩

/-- `updateVolunteerStats` only rewrites user records; the three
transaction lists and the id counter are untouched. -/
theorem stats_state (s : RState) (c : CallRec) :
    ∃ us : List (String × User), (updateVolunteerStats s c).2 = { s with users := us } := by
  unfold updateVolunteerStats
  rcases h1 : updateUserIn s.users c.volunteerUserId _ with e | users3
  · exact ⟨s.users, by simp [h1]⟩
  · simp only [h1]
    rcases h2 : lookupA users3 c.volunteerUserId with _ | u
    · exact ⟨users3, by simp [h2]⟩
    · simp only [h2]
      rcases h3 : u.walletAddress with _ | w
      · exact ⟨users3, by simp [h3]⟩
      · simp only [h3]
        by_cases h4 : w = ""
        · exact ⟨users3, by simp [h4]⟩
        · rcases h5 : updateUserIn users3 c.volunteerUserId _ with e | users4
          · exact ⟨users3, by simp [h4, h5]⟩
          · exact ⟨users4, by simp [h4, h5]⟩

/-- `processCompletedCall` appends at most two fresh transactions to the
live queue — at most one `call_completion` transaction and possibly a
`milestone` one, both aimed at the processed call — and leaves the failed
and completed records untouched. -/
theorem pcc_state (vw : String → Bool) (s : RState) (c : CallRec) :
    ∃ added : List RewardTx,
      (processCompletedCall vw s c).2.transactionQueue = s.transactionQueue ++ added ∧
      (∀ tx ∈ added, tx.retryCount = 0 ∧ tx.callId = some c.id ∧
        (tx.type = "call_completion" ∨ tx.type = "milestone")) ∧
      added.countP (completionFor c.id) ≤ 1 ∧
      (processCompletedCall vw s c).2.failedTransactions = s.failedTransactions ∧
      (processCompletedCall vw s c).2.completed = s.completed := by
  unfold processCompletedCall
  by_cases hs : c.status ≠ "completed"
  · exact ⟨[], by simp [hs]⟩
  · simp only [hs, if_false]
    rcases qrt_state vw s c.volunteerUserId (calculateRewardAmount c)
        ("Completed " ++ toString ⌈c.durationSeconds / 60⌉ ++ "-minute call")
        (some c.id) "call_completion" with ⟨e, h1⟩ | ⟨w, h1⟩
    · exact ⟨[], by simp [h1]⟩
    · simp only [h1]
      set ctx : RewardTx :=
        { id := s.nextId, userId := c.volunteerUserId, walletAddress := w
          amount := calculateRewardAmount c
          reason := "Completed " ++ toString ⌈c.durationSeconds / 60⌉ ++ "-minute call"
          callId := some c.id, type := "call_completion", status := "queued"
          retryCount := 0 } with hctx
      set s1 : RState :=
        { s with transactionQueue := s.transactionQueue ++ [ctx], nextId := s.nextId + 1 }
        with hs1
      by_cases hm : 0 < (calculateMilestoneReward s1.users c.volunteerUserId).1
      · simp only [hm, if_true]
        rcases qrt_state vw s1 c.volunteerUserId
            (calculateMilestoneReward s1.users c.volunteerUserId).1
            (calculateMilestoneReward s1.users c.volunteerUserId).2
            (some c.id) "milestone" with ⟨e2, h2⟩ | ⟨w2, h2⟩
        · refine ⟨[ctx], ?_⟩
          simp only [h2]
          refine ⟨by simp [hs1], ?_, ?_, by simp [hs1], by simp [hs1]⟩
          · intro tx htx
            simp only [List.mem_singleton] at htx
            subst htx
            exact ⟨rfl, rfl, Or.inl rfl⟩
          · simp [completionFor, hctx, List.countP_cons]
        · simp only [h2]
          set mtx : RewardTx :=
            { id := s1.nextId, userId := c.volunteerUserId, walletAddress := w2
              amount := (calculateMilestoneReward s1.users c.volunteerUserId).1
              reason := (calculateMilestoneReward s1.users c.volunteerUserId).2
              callId := some c.id, type := "milestone", status := "queued"
              retryCount := 0 } with hmtx
          set s2 : RState :=
            { s1 with transactionQueue := s1.transactionQueue ++ [mtx],
                      nextId := s1.nextId + 1 } with hs2
          obtain ⟨us, hstats⟩ := stats_state s2 c
          rcases h3 : updateVolunteerStats s2 c with ⟨r3, s3⟩
          have hs3 : s3 = { s2 with users := us } := by rw [h3] at hstats; exact hstats
          refine ⟨[ctx, mtx], ?_⟩
          cases r3 with
          | error e3 =>
            simp only [h3]
            refine ⟨?_, ?_, ?_, ?_, ?_⟩
            · simp [hs3, hs2, hs1, List.append_assoc]
            · intro tx htx
              rcases List.mem_cons.mp htx with h | h
              · subst h; exact ⟨rfl, rfl, Or.inl rfl⟩
              · simp only [List.mem_singleton] at h
                subst h; exact ⟨rfl, rfl, Or.inr rfl⟩
            · simp [completionFor, hctx, hmtx, List.countP_cons]
            · simp [hs3, hs2, hs1]
            · simp [hs3, hs2, hs1]
          | ok u3 =>
            simp only [h3]
            refine ⟨?_, ?_, ?_, ?_, ?_⟩
            · simp [hs3, hs2, hs1, List.append_assoc]
            · intro tx htx
              rcases List.mem_cons.mp htx with h | h
              · subst h; exact ⟨rfl, rfl, Or.inl rfl⟩
              · simp only [List.mem_singleton] at h
                subst h; exact ⟨rfl, rfl, Or.inr rfl⟩
            · simp [completionFor, hctx, hmtx, List.countP_cons]
            · simp [hs3, hs2, hs1]
            · simp [hs3, hs2, hs1]
      · simp only [hm, if_false]
        obtain ⟨us, hstats⟩ := stats_state s1 c
        rcases h3 : updateVolunteerStats s1 c with ⟨r3, s3⟩
        have hs3 : s3 = { s1 with users := us } := by rw [h3] at hstats; exact hstats
        refine ⟨[ctx], ?_⟩
        cases r3 with
        | error e3 =>
          simp only [h3]
          refine ⟨by simp [hs3, hs1], ?_, ?_, by simp [hs3, hs1], by simp [hs3, hs1]⟩
          · intro tx htx
            simp only [List.mem_singleton] at htx
            subst htx
            exact ⟨rfl, rfl, Or.inl rfl⟩
          · simp [completionFor, hctx, List.countP_cons]
        | ok u3 =>
          simp only [h3]
          refine ⟨by simp [hs3, hs1], ?_, ?_, by simp [hs3, hs1], by simp [hs3, hs1]⟩
          · intro tx htx
            simp only [List.mem_singleton] at htx
            subst htx
            exact ⟨rfl, rfl, Or.inl rfl⟩
          · simp [completionFor, hctx, List.countP_cons]

/-- The retry-ceiling invariant is preserved by a `queueRewardTransaction`
call. -/
theorem qinv_queueReward (vw : String → Bool) (s : RState) (userId : String)
    (amount : ℚ) (reason : String) (callId : Option String) (type : String)
    (h : QInv s) : QInv (queueRewardTransaction vw s userId amount reason callId type).2 := by
  rcases qrt_state vw s userId amount reason callId type with ⟨e, heq⟩ | ⟨w, heq⟩
  · rw [heq]
    exact h
  · rw [heq]
    obtain ⟨hq, hf, hc⟩ := h
    refine ⟨?_, hf, hc⟩
    intro tx htx
    rcases List.mem_append.mp htx with h1 | h1
    · exact hq tx h1
    · simp only [List.mem_singleton] at h1
      subst h1
      show (0 : ℕ) < maxRetries
      decide

/-- The retry-ceiling invariant is preserved by `processCompletedCall`. -/
theorem qinv_processCompleted (vw : String → Bool) (s : RState) (c : CallRec)
    (h : QInv s) : QInv (processCompletedCall vw s c).2 := by
  obtain ⟨added, hq, hfresh, _, hf, hc⟩ := pcc_state vw s c
  obtain ⟨h1, h2, h3⟩ := h
  refine ⟨?_, hf ▸ h2, hc ▸ h3⟩
  intro tx htx
  rw [hq] at htx
  rcases List.mem_append.mp htx with hm | hm
  · exact h1 tx hm
  · rw [(hfresh tx hm).1]
    decide

/-- The retry-ceiling invariant is preserved by one consumer-loop
iteration: a failed submission re-queues only while the incremented count
is still below `maxRetries`, and moves the transaction to the failed set
exactly when the count reaches `maxRetries`. -/
theorem qinv_processOne (s : RState) (o : Outcome) (h : QInv s) :
    QInv (processOne s o) := by
  obtain ⟨h1, h2, h3⟩ := h
  unfold processOne
  rcases hq : s.transactionQueue with _ | ⟨tx, rest⟩
  · exact ⟨h1, h2, h3⟩
  · have htx : tx.retryCount < maxRetries := h1 tx (hq ▸ List.mem_cons_self _ _)
    have hrest : ∀ t ∈ rest, t.retryCount < maxRetries :=
      fun t ht => h1 t (hq ▸ List.mem_cons_of_mem _ ht)
    cases o with
    | sendOk =>
      refine ⟨hrest, h2, ?_⟩
      intro t ht
      rcases List.mem_cons.mp ht with h4 | h4
      · subst h4
        exact htx
      · exact h3 t h4
    | insufficientBalance =>
      by_cases hlt : tx.retryCount + 1 < maxRetries
      · simp only [hlt, if_true]
        refine ⟨?_, h2, h3⟩
        intro t ht
        rcases List.mem_append.mp ht with h4 | h4
        · exact hrest t h4
        · simp only [List.mem_singleton] at h4
          subst h4
          exact hlt
      · simp only [hlt, if_false]
        refine ⟨hrest, ?_, h3⟩
        intro t ht
        rcases List.mem_cons.mp ht with h4 | h4
        · subst h4
          show tx.retryCount + 1 = maxRetries
          simp only [maxRetries] at htx hlt ⊢
          omega
        · exact h2 t h4
    | sendErr =>
      by_cases hlt : tx.retryCount + 1 < maxRetries
      · simp only [hlt, if_true]
        refine ⟨?_, h2, h3⟩
        intro t ht
        rcases List.mem_append.mp ht with h4 | h4
        · exact hrest t h4
        · simp only [List.mem_singleton] at h4
          subst h4
          exact hlt
      · simp only [hlt, if_false]
        refine ⟨hrest, ?_, h3⟩
        intro t ht
        rcases List.mem_cons.mp ht with h4 | h4
        · subst h4
          show tx.retryCount + 1 = maxRetries
          simp only [maxRetries] at htx hlt ⊢
          omega
        · exact h2 t h4

/-- The retry-ceiling invariant is preserved by
`retryFailedTransactions`. -/
theorem qinv_retryFailed (s : RState) (h : QInv s) :
    QInv (retryFailedTransactions s).2 := by
  obtain ⟨h1, h2, h3⟩ := h
  unfold retryFailedTransactions
  refine ⟨?_, ?_, h3⟩
  · intro tx htx
    rcases List.mem_append.mp htx with h4 | h4
    · exact h1 tx h4
    · rcases List.mem_map.mp h4 with ⟨t, _, heq⟩
      rw [← heq]
      show (0 : ℕ) < maxRetries
      decide
  · intro tx htx
    exact h2 tx (List.mem_of_mem_filter htx)

/-- Every reward-queue event preserves the retry-ceiling invariant. -/
theorem qinv_step (vw : String → Bool) (s : RState) (op : QOp) (h : QInv s) :
    QInv (applyQ vw s op) := by
  cases op with
  | queueReward userId amount reason callId type =>
    exact qinv_queueReward vw s userId amount reason callId type h
  | processCompleted c => exact qinv_processCompleted vw s c h
  | process o => exact qinv_processOne s o h
  | retryFailed => exact qinv_retryFailed s h

theorem qinv_fold (vw : String → Bool) (ops : List QOp) (s : RState) (h : QInv s) :
    QInv (applyQOps vw s ops) := by
  induction ops generalizing s with
  | nil => exact h
  | cons op rest ih => exact ih (applyQ vw s op) (qinv_step vw s op h)

/-- The retry-ceiling invariant holds in every reachable reward-queue
state. -/
theorem qinv_reachable (vw : String → Bool) (users : List (String × User))
    (s : RState) (h : QReachable vw users s) : QInv s := by
  obtain ⟨ops, hops⟩ := h
  rw [← hops]
  refine qinv_fold vw ops (qinit users) ?_
  refine ⟨?_, ?_, ?_⟩ <;> intro tx htx <;> simp [qinit] at htx

/-- A changed status or retry count does not affect whether a transaction
is a call-completion payout for a given call. -/
theorem completionFor_status (cid : String) (tx : RewardTx) (st : String) :
    completionFor cid { tx with status := st } = completionFor cid tx := rfl

theorem completionFor_retry (cid : String) (tx : RewardTx) (n : ℕ) :
    completionFor cid { tx with retryCount := n } = completionFor cid tx := rfl

theorem countP_singleton {α : Type} (p : α → Bool) (a : α) :
    List.countP p [a] = if p a then 1 else 0 := by
  simp [List.countP_cons]

/-- `queueRewardTransaction` creates at most one call-completion payout
for a call, and only when explicitly asked to. -/
theorem ccount_queueReward (vw : String → Bool) (s : RState) (userId : String)
    (amount : ℚ) (reason : String) (callId : Option String) (type : String)
    (cid : String) :
    completionCount cid (queueRewardTransaction vw s userId amount reason callId type).2 ≤
      completionCount cid s +
        (if type = "call_completion" ∧ callId = some cid then 1 else 0) := by
  rcases qrt_state vw s userId amount reason callId type with ⟨e, heq⟩ | ⟨w, heq⟩
  · rw [heq]
    exact Nat.le_add_right _ _
  · rw [heq]
    unfold completionCount
    simp only [List.countP_append, countP_singleton]
    have hsingle :
        (if completionFor cid
            { id := s.nextId, userId := userId, walletAddress := w, amount := amount
              reason := reason, callId := callId, type := type, status := "queued"
              retryCount := 0 } = true then 1 else 0) =
          (if type = "call_completion" ∧ callId = some cid then 1 else 0) := by
      by_cases hc : type = "call_completion" ∧ callId = some cid
      · simp [completionFor, hc.1, hc.2]
      · simp [completionFor, hc]
    rw [hsingle]
    omega

/-- `processCompletedCall` creates at most one call-completion payout for
the processed call and none for any other call. -/
theorem ccount_processCompleted (vw : String → Bool) (s : RState) (c : CallRec)
    (cid : String) :
    completionCount cid (processCompletedCall vw s c).2 ≤
      completionCount cid s + (if c.id = cid then 1 else 0) := by
  obtain ⟨added, hq, hfresh, hle, hf, hc2⟩ := pcc_state vw s c
  unfold completionCount
  rw [hq, hf, hc2, List.countP_append]
  by_cases hcid : c.id = cid
  · subst hcid
    simp only [if_pos rfl] at *
    simp only [eq_self_iff_true, if_true]
    omega
  · have hz : added.countP (completionFor cid) = 0 := by
      rw [List.countP_eq_zero]
      intro tx htx
      obtain ⟨-, hcall, -⟩ := hfresh tx htx
      simp only [completionFor, decide_eq_true_eq, not_and]
      intro _
      rw [hcall]
      simp only [Option.some_inj]
      exact hcid
    simp [hz, hcid]

/-- One consumer-loop iteration moves transactions between the three
lists but neither creates nor destroys call-completion payouts. -/
theorem ccount_processOne (s : RState) (o : Outcome) (cid : String) :
    completionCount cid (processOne s o) = completionCount cid s := by
  rcases hq : s.transactionQueue with _ | ⟨tx, rest⟩
  · have h : processOne s o = s := by
      unfold processOne
      rw [hq]
    rw [h]
  · have hcons : List.countP (completionFor cid) s.transactionQueue =
        List.countP (completionFor cid) rest +
          (if completionFor cid tx then 1 else 0) := by
      rw [hq, List.countP_cons]
    cases o with
    | sendOk =>
      have h : processOne s Outcome.sendOk =
          { s with transactionQueue := rest
                   completed := { tx with status := "completed" } :: s.completed } := by
        unfold processOne
        rw [hq]
      rw [h]
      unfold completionCount
      simp only [List.countP_cons, completionFor_status, hcons]
      omega
    | insufficientBalance =>
      by_cases hlt : tx.retryCount + 1 < maxRetries
      · have h : processOne s Outcome.insufficientBalance =
            { s with transactionQueue :=
                rest ++ [{ tx with retryCount := tx.retryCount + 1 }] } := by
          unfold processOne
          rw [hq]
          exact if_pos hlt
        rw [h]
        unfold completionCount
        simp only [List.countP_append, countP_singleton, completionFor_retry, hcons]
      · have h : processOne s Outcome.insufficientBalance =
            { s with transactionQueue := rest
                     failedTransactions :=
                       { tx with retryCount := tx.retryCount + 1 } :: s.failedTransactions } := by
          unfold processOne
          rw [hq]
          exact if_neg hlt
        rw [h]
        unfold completionCount
        simp only [List.countP_cons, completionFor_retry, hcons]
        omega
    | sendErr =>
      by_cases hlt : tx.retryCount + 1 < maxRetries
      · have h : processOne s Outcome.sendErr =
            { s with transactionQueue :=
                rest ++ [{ tx with retryCount := tx.retryCount + 1 }] } := by
          unfold processOne
          rw [hq]
          exact if_pos hlt
        rw [h]
        unfold completionCount
        simp only [List.countP_append, countP_singleton, completionFor_retry, hcons]
      · have h : processOne s Outcome.sendErr =
            { s with transactionQueue := rest
                     failedTransactions :=
                       { tx with retryCount := tx.retryCount + 1 } :: s.failedTransactions } := by
          unfold processOne
          rw [hq]
          exact if_neg hlt
        rw [h]
        unfold completionCount
        simp only [List.countP_cons, completionFor_retry, hcons]
        omega

/-- `retryFailedTransactions` moves transactions back to the queue but
neither creates nor destroys call-completion payouts. -/
theorem ccount_retryFailed (s : RState) (cid : String) :
    completionCount cid (retryFailedTransactions s).2 = completionCount cid s := by
  unfold retryFailedTransactions completionCount
  simp only [List.countP_append]
  have hmap : ((s.failedTransactions.filter (fun tx => tx.retryCount < maxRetries)).map
      (fun tx => { tx with retryCount := 0 })).countP (completionFor cid) =
      (s.failedTransactions.filter (fun tx => tx.retryCount < maxRetries)).countP
        (completionFor cid) := by
    rw [List.countP_map]
    rfl
  have hsplit := countP_filter_split (completionFor cid)
    (fun tx => decide (tx.retryCount < maxRetries)) s.failedTransactions
  rw [hmap]
  simp only [decide_not] at *
  omega

/-- Any reward-queue event creates at most `opCredit` new call-completion
payouts for a given call. -/
theorem ccount_step (vw : String → Bool) (s : RState) (op : QOp) (cid : String) :
    completionCount cid (applyQ vw s op) ≤ completionCount cid s + opCredit cid op := by
  cases op with
  | queueReward userId amount reason callId type =>
    exact ccount_queueReward vw s userId amount reason callId type cid
  | processCompleted c => exact ccount_processCompleted vw s c cid
  | process o =>
    rw [show applyQ vw s (QOp.process o) = processOne s o from rfl, ccount_processOne]
    exact Nat.le_add_right _ _
  | retryFailed =>
    rw [show applyQ vw s QOp.retryFailed = (retryFailedTransactions s).2 from rfl,
      ccount_retryFailed]
    exact Nat.le_add_right _ _

theorem ccount_fold (vw : String → Bool) (ops : List QOp) (s : RState) (cid : String) :
    completionCount cid (applyQOps vw s ops) ≤
      completionCount cid s + (ops.map (opCredit cid)).sum := by
  induction ops generalizing s with
  | nil => simp [applyQOps]
  | cons op rest ih =>
    have h1 := ccount_step vw s op cid
    have h2 := ih (applyQ vw s op)
    have h3 : applyQOps vw s (op :: rest) = applyQOps vw (applyQ vw s op) rest := rfl
    rw [h3]
    simp only [List.map_cons, List.sum_cons]
    omega

/-! ### The signaling relay's room invariant -/

theorem ne_nil_of_not_isEmpty {α : Type} {l : List α} (h : l.isEmpty = false) :
    l ≠ [] := by
  cases l with
  | nil => simp at h
  | cons a t => exact List.cons_ne_nil a t

/-- `handleConnection` does not touch the room map. -/
theorem winv_connect (s : WState) (h : WInv s) : WInv (handleConnection s).state := by
  intro p hp
  exact h p hp

/-- Leaving a room either deletes it (when it became empty) or keeps it
with its remaining participants, so the room invariant is preserved. -/
theorem winv_leave (s : WState) (c : ℕ) (h : WInv s) : WInv (handleLeaveRoom s c).state := by
  unfold handleLeaveRoom
  rcases h1 : lookupA s.connections c with _ | ci
  · simp only [h1]
    exact h
  · simp only [h1]
    rcases h2 : ci.roomId with _ | roomId
    · simp only [h2]
      exact h
    · simp only [h2]
      rcases h3 : lookupA s.rooms roomId with _ | room
      · simp only [h3]
        intro p hp
        exact h p hp
      · simp only [h3]
        intro p hp
        simp only at hp
        rcases h5 : (match ci.userId with
            | some uid => eraseA room.participants uid
            | none => room.participants).isEmpty with _ | _
        · rw [h5] at hp
          simp only [Bool.false_eq_true, if_false] at hp
          rcases mem_setA _ _ _ _ hp with he | he
          · rw [he]
            exact ne_nil_of_not_isEmpty h5
          · exact h p he
        · rw [h5] at hp
          simp only [if_true] at hp
          exact h p (mem_eraseA _ _ _ hp)

/-- Joining inserts the joiner into the target room, which therefore
stays nonempty; the preliminary leave preserves the invariant by
`winv_leave`. -/
theorem winv_join (s : WState) (c : ℕ) (r u t : String) (h : WInv s) :
    WInv (handleJoinRoom s c r u t).state := by
  unfold handleJoinRoom
  rcases h1 : lookupA s.connections c with _ | ci
  · simp only [h1]
    exact h
  · simp only [h1]
    by_cases h2 : r = "" ∨ u = "" ∨ t = ""
    · rw [if_pos h2]
      exact h
    · rw [if_neg h2]
      by_cases h3 : t ≠ "blind" ∧ t ≠ "volunteer"
      · rw [if_pos h3]
        exact h
      · rw [if_neg h3]
        have hleft : WInv (match ci.roomId with
            | some _ => handleLeaveRoom s c
            | none => ⟨s, [], []⟩).state := by
          rcases ci.roomId with _ | rid
          · exact h
          · exact winv_leave s c h
        intro p hp
        simp only at hp
        rcases mem_setA _ _ _ _ hp with he | he
        · rw [he]
          by_cases hlen : (setA (match lookupA (match ci.roomId with
              | some _ => handleLeaveRoom s c
              | none => ⟨s, [], []⟩).state.rooms r with
              | some rm => rm
              | none => ⟨[], "waiting", none⟩).participants u
                ⟨c, u, t, false⟩).length = 2 <;>
            simp only [hlen, if_true, if_false] <;>
            exact setA_ne_nil _ _ _
        · exact hleft p he

/-- A disconnection removes the participant and deletes the room exactly
when it became empty, preserving the invariant. -/
theorem winv_disconnect (s : WState) (c : ℕ) (h : WInv s) :
    WInv (handleDisconnection s c).state := by
  unfold handleDisconnection
  rcases h1 : lookupA s.connections c with _ | ci
  · simp only [h1]
    exact h
  · simp only [h1]
    rcases h2 : ci.roomId with _ | roomId
    · simp only [h2]
      intro p hp
      exact h p hp
    · simp only [h2]
      rcases h3 : lookupA s.rooms roomId with _ | room
      · simp only [h3]
        intro p hp
        exact h p hp
      · simp only [h3]
        intro p hp
        simp only at hp
        rcases h5 : (match ci.userId with
            | some uid => eraseA room.participants uid
            | none => room.participants).isEmpty with _ | _
        · rw [h5] at hp
          simp only [Bool.false_eq_true, if_false] at hp
          rcases mem_setA _ _ _ _ hp with he | he
          · rw [he]
            exact ne_nil_of_not_isEmpty h5
          · exact h p he
        · rw [h5] at hp
          simp only [if_true] at hp
          exact h p (mem_eraseA _ _ _ hp)

/-- A `call_status` update rewrites a room's status but keeps its
participants, preserving the invariant. -/
theorem winv_callStatus (s : WState) (c : ℕ) (st reason : Option String)
    (h : WInv s) : WInv (handleCallStatus s c st reason).state := by
  unfold handleCallStatus
  rcases h1 : lookupA s.connections c with _ | ci
  · simp only [h1]
    exact h
  · simp only [h1]
    rcases h2 : ci.roomId with _ | roomId
    · simp only [h2]
      exact h
    · simp only [h2]
      rcases h3 : st with _ | stv
      · simp only
        exact h
      · simp only
        by_cases h4 : stv = ""
        · rw [if_pos h4]
          exact h
        · rw [if_neg h4]
          rcases h5 : lookupA s.rooms roomId with _ | room
          · simp only [h5]
            exact h
          · simp only [h5]
            intro p hp
            simp only at hp
            rcases mem_setA _ _ _ _ hp with he | he
            · rw [he]
              have hroom := h (roomId, room) (lookupA_mem _ _ _ h5)
              exact hroom
            · exact h p he

/-- Every modeled relay event preserves the room invariant. -/
theorem winv_step (s : WState) (op : WOp) (h : WInv s) : WInv (applyW s op) := by
  cases op with
  | connect => exact winv_connect s h
  | disconnect c => exact winv_disconnect s c h
  | join c r u t => exact winv_join s c r u t h
  | leave c => exact winv_leave s c h
  | callStatus c st r => exact winv_callStatus s c st r h

theorem winv_fold (ops : List WOp) (s : WState) (h : WInv s) :
    WInv (applyWOps s ops) := by
  induction ops generalizing s with
  | nil => exact h
  | cons op rest ih => exact ih (applyW s op) (winv_step s op h)

/-! ## The claims -/

/-- Claim C1 (refuted by the code; code bug).  The claim says: for every
connection that disconnects while it is a participant in a room whose
status is `active` or `connected`, the disconnect handler marks the
associated call failed with a reason containing "disconnected", and the
remaining participant receives `user_disconnected`.  In the reachable
state `sC1` — room `r` is `active` with two participants — participant
`u1` disconnecting produces the `user_disconnected` message for `u2` but
issues NO call update at all: `handleDisconnection` first resets the
non-empty room's status to `waiting` and only then consults the status,
so the `active`/`connected` check can never fire while a remaining
participant exists (and `room.callId` is never populated anyway). -/
theorem disconnect_in_active_room_issues_no_call_update :
    WReachable sC1 ∧
    (lookupA sC1.rooms "r").map (fun r => r.status) = some "active" ∧
    (lookupA sC1.rooms "r").map (fun r => r.participants.length) = some 2 ∧
    (handleDisconnection sC1 1).updates = [] ∧
    (2, WMsg.userDisconnected (some "u1") (some "blind") "Connection lost") ∈
      (handleDisconnection sC1 1).msgs :=
  ⟨⟨c1ops, rfl⟩, by decide, by decide, by decide, by decide⟩

/-- Claim C2 (refuted by the code; code bug).  The claim says: processing
a volunteer's 10th completed call queues exactly one milestone reward of
the `calls10` amount, and the 11th does not re-trigger it.  In fact no
milestone is ever queued: `processCompletedCall` updates the volunteer's
stored `totalCalls` to `callData.totalCalls + 1`, a field of the call
record that no call-creation path writes, so after the very first
processed call the stored count is `NaN` (`none`) and never equals 10.
Here a freshly registered volunteer (`totalCalls = 0`) has 11 completed
calls processed once each: eleven call-completion transactions are queued
and no `milestone` transaction exists anywhere, while
`calculateMilestoneReward` itself would pay `calls10` had the stored
count been 10. -/
theorem milestone_reward_never_queued :
    QReachable vwAll demoUsers s11 ∧
    (s11.transactionQueue ++ s11.failedTransactions ++ s11.completed).filter
      (fun tx => tx.type = "milestone") = [] ∧
    (lookupA s11.users "v").map (fun u => u.totalCalls) = some none ∧
    s11.transactionQueue.length = 11 ∧
    calculateMilestoneReward [("v", { uVol with totalCalls := some 10 })] "v" =
      (rewards.calls10, "10 calls milestone") :=
  ⟨⟨ops11, rfl⟩, by decide, by decide, by decide, by decide⟩

/-- Claim C3 counterexample.  The claim says that with zero available
volunteers `attemptMatch` fails immediately, without any 2-second retry
delay.  With an empty volunteer list it in fact performs two 2-second
delays (three `findBestMatch` attempts) before failing with the
no-volunteers error. -/
theorem attemptMatch_no_volunteers_two_delays_cex :
    (attemptMatch demoUsersB (fun _ => []) [] [] "b" "general" 0 maxWaitTime).result =
      Except.error MatchError.noVolunteersAvailable ∧
    (attemptMatch demoUsersB (fun _ => []) [] [] "b" "general" 0 maxWaitTime).delays = 2 := by
  have hfb : ∀ t : ℚ, findBestMatch demoUsersB [] [] [] t "b" "general" =
      Except.error MatchError.noVolunteersAvailable := by
    intro t
    unfold findBestMatch demoUsersB lookupA
    simp [uBlind]
  have h0 : ¬ maxWaitTime < (0 : ℚ) := by norm_num [maxWaitTime]
  have h1 : ¬ maxWaitTime < (0 : ℚ) + 2000 := by norm_num [maxWaitTime]
  have h2 : ¬ maxWaitTime < (0 : ℚ) + 2000 + 2000 := by norm_num [maxWaitTime]
  unfold attemptMatch
  show (attemptLoop demoUsersB (fun _ => []) [] [] "b" "general" maxWaitTime
      (Nat.succ 2) 1 0).result = _ ∧ _
  rw [attemptLoop]
  rw [if_neg h0, hfb]
  simp only [Nat.succ_ne_zero, if_false]
  rw [attemptLoop]
  rw [if_neg h1, hfb]
  simp only [Nat.succ_ne_zero, if_false]
  rw [attemptLoop]
  rw [if_neg h2, hfb]
  exact ⟨rfl, rfl⟩

/-- Claim C3 (amended): when the volunteer list is empty at every
attempt and the waiting entry's deadline has not passed, `attemptMatch`
fails with the no-volunteers-available error only after three
`findBestMatch` attempts, having performed two 2-second retry delays —
not immediately. -/
theorem attemptMatch_no_volunteers_retries_before_failing
    (users : List (String × User)) (u : User)
    (volunteerLastCall : List (String × ℚ)) (callCount : List (String × ℕ))
    (blindUserId helpCategory : String) (now deadline : ℚ)
    (hu : lookupA users blindUserId = some u) (ht : u.userType = "blind")
    (hd : now + 4000 ≤ deadline) :
    attemptMatch users (fun _ => []) volunteerLastCall callCount blindUserId
      helpCategory now deadline =
      ⟨Except.error MatchError.noVolunteersAvailable, 2⟩ := by
  have hfb : ∀ t : ℚ, findBestMatch users [] volunteerLastCall callCount t
      blindUserId helpCategory = Except.error MatchError.noVolunteersAvailable := by
    intro t
    unfold findBestMatch
    rw [hu]
    simp [ht]
  have h0 : ¬ deadline < now := by linarith
  have h1 : ¬ deadline < now + 2000 := by linarith
  have h2 : ¬ deadline < now + 2000 + 2000 := by linarith
  unfold attemptMatch
  show attemptLoop users (fun _ => []) volunteerLastCall callCount blindUserId
      helpCategory deadline (Nat.succ 2) 1 now = _
  rw [attemptLoop]
  rw [if_neg h0, hfb]
  simp only [Nat.succ_ne_zero, if_false]
  show (⟨(attemptLoop users (fun _ => []) volunteerLastCall callCount blindUserId
      helpCategory deadline (Nat.succ 1) 2 (now + 2000)).result,
    (attemptLoop users (fun _ => []) volunteerLastCall callCount blindUserId
      helpCategory deadline (Nat.succ 1) 2 (now + 2000)).delays + 1⟩ : AttemptOutcome) = _
  rw [attemptLoop]
  rw [if_neg h1, hfb]
  simp only [Nat.succ_ne_zero, if_false]
  show (⟨(attemptLoop users (fun _ => []) volunteerLastCall callCount blindUserId
      helpCategory deadline (Nat.succ 0) 3 (now + 2000 + 2000)).result,
    (attemptLoop users (fun _ => []) volunteerLastCall callCount blindUserId
      helpCategory deadline (Nat.succ 0) 3 (now + 2000 + 2000)).delays + 1 + 1⟩ :
      AttemptOutcome) = _
  rw [attemptLoop]
  rw [if_neg h2, hfb]
  simp

theorem attemptMatch_no_volunteers_retries_before_failing_witness :
    lookupA demoUsersB "b" = some uBlind ∧ uBlind.userType = "blind" ∧
    ((0 : ℚ) + 4000 ≤ maxWaitTime) ∧
    attemptMatch demoUsersB (fun _ => []) [] [] "b" "general" 0 maxWaitTime =
      ⟨Except.error MatchError.noVolunteersAvailable, 2⟩ :=
  ⟨by decide, rfl, by norm_num [maxWaitTime],
    attemptMatch_no_volunteers_retries_before_failing demoUsersB uBlind [] [] "b"
      "general" 0 maxWaitTime (by decide) rfl (by norm_num [maxWaitTime])⟩

/-- Claim C4 counterexample.  The claim says every reachable room has at
most 2 participants (a third distinct join does not go through).  Three
distinct users joining room `r` on three connections yield a reachable
state in which `r` has 3 participants: `handleJoinRoom` has no size
check. -/
theorem third_join_accepted_cex :
    WReachable (applyWOps winit c4ops) ∧
    (lookupA (applyWOps winit c4ops).rooms "r").map
      (fun r => r.participants.length) = some 3 :=
  ⟨⟨c4ops, rfl⟩, by decide⟩

/-- Claim C4 (amended): a third distinct join is accepted, so the
participant count is not bounded by 2; but the deletion half of the
claim holds — whenever a participant removal empties a room the room is
deleted in the same synchronous step, i.e. every room present in a
reachable state's room map has at least one participant. -/
theorem reachable_rooms_nonempty (s : WState) (h : WReachable s) :
    ∀ p ∈ s.rooms, (p.2 : Room).participants ≠ [] := by
  obtain ⟨ops, hops⟩ := h
  rw [← hops]
  refine winv_fold ops winit ?_
  intro p hp
  simp [winit] at hp

theorem reachable_rooms_nonempty_witness :
    WReachable sW4 ∧ roomW4.participants ≠ [] :=
  ⟨⟨w4ops, rfl⟩,
    reachable_rooms_nonempty sW4 ⟨w4ops, rfl⟩ ("r", roomW4) (by decide)⟩

/-- Claim C5 counterexample.  The claim says at most one completed
call-completion transaction is ever produced per call id, including
under repeated processing of the same completed call.  Processing the
same completed call twice (each payout succeeding) yields a reachable
state with two completed call-completion transactions for call `c1`:
nothing deduplicates on the call id. -/
theorem reprocessed_call_pays_twice_cex :
    QReachable vwAll demoUsers s5 ∧
    s5.completed.countP (completionFor "c1") = 2 :=
  ⟨⟨c5ops, rfl⟩, by decide⟩

/-- Claim C5 (amended): each processing of a completed call queues
exactly one call-completion transaction for it, so the number of
completed call-completion payouts for a call id is bounded by the number
of times that call is processed (or explicitly queued); at-most-once
payout holds only when the call is processed at most once. -/
theorem completion_payouts_bounded_by_processings (vw : String → Bool)
    (users : List (String × User)) (ops : List QOp) (cid : String)
    (h : (ops.map (opCredit cid)).sum ≤ 1) :
    (applyQOps vw (qinit users) ops).completed.countP (completionFor cid) ≤ 1 := by
  have h1 := ccount_fold vw ops (qinit users) cid
  have h2 : completionCount cid (qinit users) = 0 := rfl
  have h3 : (applyQOps vw (qinit users) ops).completed.countP (completionFor cid) ≤
      completionCount cid (applyQOps vw (qinit users) ops) := by
    unfold completionCount
    omega
  omega

theorem completion_payouts_bounded_by_processings_witness :
    (c5wOps.map (opCredit "c1")).sum ≤ 1 ∧
    (applyQOps vwAll (qinit demoUsers) c5wOps).completed.countP (completionFor "c1") ≤ 1 :=
  ⟨by decide,
    completion_payouts_bounded_by_processings vwAll demoUsers c5wOps "c1" (by decide)⟩

/-- Claim C6 counterexample.  The claim says `calculateVolunteerScore`
returns exactly the weighted formula.  For an offline volunteer with
reputation 0 the formula yields −20, but the function returns 0: the
code ends with `Math.max(score, 0)`, which the claim's formula omits. -/
theorem score_clamp_cex :
    calculateVolunteerScore [] [] 0 offlineVolunteer "general" = 0 ∧
    scoreFormula offlineVolunteer.reputationScore (idleHoursOf [] 0 offlineVolunteer.id)
      ((lookupA ([] : List (String × ℕ)) offlineVolunteer.id).getD 0)
      (decide ("general" ∈ offlineVolunteer.skills)) (fastResponseOf offlineVolunteer)
      offlineVolunteer.isOnline = -20 ∧
    (0 : ℚ) ≠ -20 := by
  refine ⟨?_, ?_, by norm_num⟩
  · unfold calculateVolunteerScore offlineVolunteer
    norm_num [lookupA, reputationWeight, Rat.mkRat_eq_div]
  · unfold scoreFormula offlineVolunteer idleHoursOf fastResponseOf
    norm_num [lookupA, reputationWeight, Rat.mkRat_eq_div]

/-- Claim C6 (amended): `calculateVolunteerScore` returns the weighted
formula — reputation × 0.1 + min(idleHours × 2, 10) − min(callsToday, 5)
+ 10 for a matching skill + 5 for a recorded (nonzero) average response
time under 30 s − 20 when offline — clamped below at zero
(`max formula 0`); in particular, for the spec's scenario volunteer
(online, reputation 100, idle one hour, no calls today, matching skill)
the score is exactly 22. -/
theorem calculateVolunteerScore_eq_clamped_formula :
    (∀ (volunteerLastCall : List (String × ℚ)) (callCount : List (String × ℕ))
        (now : ℚ) (v : Volunteer) (helpCategory : String),
      calculateVolunteerScore volunteerLastCall callCount now v helpCategory =
        max (scoreFormula v.reputationScore (idleHoursOf volunteerLastCall now v.id)
          ((lookupA callCount v.id).getD 0) (decide (helpCategory ∈ v.skills))
          (fastResponseOf v) v.isOnline) 0) ∧
    calculateVolunteerScore [] [] 3600000 demoVolunteer "reading" = 22 := by
  constructor
  · intro volunteerLastCall callCount now v helpCategory
    unfold calculateVolunteerScore scoreFormula idleHoursOf fastResponseOf
    rcases v with ⟨id, rep, skills, art, online⟩
    simp only
    cases art with
    | none =>
      by_cases hs : helpCategory ∈ skills <;> cases online <;>
        · simp [hs]
          try ring
    | some t =>
      by_cases hs : helpCategory ∈ skills <;>
        by_cases hf : t ≠ 0 ∧ t < 30000 <;> cases online <;>
        · simp [hs, hf]
          try ring
  · unfold calculateVolunteerScore demoVolunteer
    norm_num [lookupA, reputationWeight, Rat.mkRat_eq_div]

/-- Claim C7: in every reachable state of the reward queue no
transaction's retry count exceeds `maxRetries` (3): live queue entries
are strictly below it, a transaction whose count reaches 3 sits in the
terminal failed set rather than being re-queued (every failed-set entry
is exactly at 3), and completed transactions kept a count below 3. -/
theorem retry_count_ceiling (vw : String → Bool) (users : List (String × User))
    (s : RState) (h : QReachable vw users s) :
    (∀ tx ∈ s.transactionQueue, tx.retryCount < maxRetries) ∧
    (∀ tx ∈ s.failedTransactions, tx.retryCount = maxRetries) ∧
    (∀ tx ∈ s.completed, tx.retryCount < maxRetries) :=
  qinv_reachable vw users s h

theorem retry_count_ceiling_witness :
    QReachable vwAll demoUsers sW7 ∧ txW7.retryCount < maxRetries :=
  ⟨⟨w7ops, rfl⟩,
    (retry_count_ceiling vwAll demoUsers sW7 ⟨w7ops, rfl⟩).1 txW7 (by decide)⟩

/-- Claim C8 counterexample.  The claim says a successful `declineMatch`
re-enters the help-seeker into the waiting queue (a WaitingEntry is
present afterwards).  After a successful decline of the only active
match, the waiting queue contains no entry for the help-seeker `b`:
`declineMatch` builds the rematch waiting info and fires `attemptMatch`
with it but never inserts it into `waitingQueue`. -/
theorem declineMatch_no_waiting_entry_cex :
    (declineMatch s8 1000 "r" "v" "Volunteer unavailable").result = Except.ok true ∧
    lookupA (declineMatch s8 1000 "r" "v" "Volunteer unavailable").state.waitingQueue
      "b" = none :=
  ⟨rfl, rfl⟩

/-- Claim C8 (amended): a successful `declineMatch` marks the call
failed, makes the volunteer available again, removes the active match
and spawns a fire-and-forget rematch task for the help-seeker with a
fresh 60-second timeout — without inserting a WaitingEntry into the
waiting queue, which is left unchanged; the success result is produced
independently of the spawned rematch, so rematch failures are not
surfaced to the declining volunteer. -/
theorem declineMatch_success_effects (s : MatchingState) (now : ℚ)
    (roomId volunteerId reason : String) (m : MatchInfo)
    (hm : lookupA s.activeMatches roomId = some m)
    (hv : m.volunteerUserId = volunteerId) :
    (declineMatch s now roomId volunteerId reason).result = Except.ok true ∧
    (declineMatch s now roomId volunteerId reason).callUpdates =
      [⟨some m.callId, "failed", reason⟩] ∧
    (declineMatch s now roomId volunteerId reason).availabilitySets =
      [(volunteerId, true)] ∧
    (declineMatch s now roomId volunteerId reason).state.waitingQueue =
      s.waitingQueue ∧
    (declineMatch s now roomId volunteerId reason).state.activeMatches =
      eraseA s.activeMatches roomId ∧
    (declineMatch s now roomId volunteerId reason).rematchTask =
      some ⟨m.blindUserId, "general", 5, now, now + 60000, "rematching"⟩ := by
  unfold declineMatch
  simp only [hm]
  rw [if_neg (by simp [hv])]
  exact ⟨rfl, rfl, rfl, rfl, rfl, rfl⟩

theorem declineMatch_success_effects_witness :
    lookupA s8.activeMatches "r" = some m8 ∧ m8.volunteerUserId = "v" ∧
    (declineMatch s8 1000 "r" "v" "Volunteer unavailable").state.waitingQueue =
      s8.waitingQueue :=
  ⟨by decide, rfl,
    (declineMatch_success_effects s8 1000 "r" "v" "Volunteer unavailable" m8
      (by decide) rfl).2.2.2.1⟩

/-- Claim C9: in every reachable state every transaction in the failed
set has retry count equal to `maxRetries` (3); consequently
`retryFailedTransactions`, which only moves back transactions with a
count strictly below 3, re-queues nothing, returns a retried count of 0
and leaves the state unchanged. -/
theorem retryFailedTransactions_retries_nothing (vw : String → Bool)
    (users : List (String × User)) (s : RState) (h : QReachable vw users s) :
    (∀ tx ∈ s.failedTransactions, tx.retryCount = maxRetries) ∧
    (retryFailedTransactions s).1 = 0 ∧ (retryFailedTransactions s).2 = s := by
  have hf : ∀ tx ∈ s.failedTransactions, tx.retryCount = maxRetries :=
    (qinv_reachable vw users s h).2.1
  have hfil : s.failedTransactions.filter (fun tx => tx.retryCount < maxRetries) = [] := by
    rw [List.filter_eq_nil_iff]
    intro tx htx
    simp [hf tx htx]
  have hkeep : s.failedTransactions.filter (fun tx => ¬ tx.retryCount < maxRetries) =
      s.failedTransactions := by
    rw [List.filter_eq_self]
    intro tx htx
    simp [hf tx htx]
  refine ⟨hf, ?_, ?_⟩
  · show (s.failedTransactions.filter (fun tx => tx.retryCount < maxRetries)).length = 0
    rw [hfil]
    rfl
  · show ({ s with
        failedTransactions :=
          s.failedTransactions.filter (fun tx => ¬ tx.retryCount < maxRetries)
        transactionQueue := s.transactionQueue ++
          (s.failedTransactions.filter (fun tx => tx.retryCount < maxRetries)).map
            (fun tx => { tx with retryCount := 0 }) } : RState) = s
    rw [hfil, hkeep]
    simp

theorem retryFailedTransactions_retries_nothing_witness :
    QReachable vwAll demoUsers s9 ∧
    (retryFailedTransactions s9).1 = 0 ∧ (retryFailedTransactions s9).2 = s9 :=
  ⟨⟨c9ops, rfl⟩,
    (retryFailedTransactions_retries_nothing vwAll demoUsers s9 ⟨c9ops, rfl⟩).2.1,
    (retryFailedTransactions_retries_nothing vwAll demoUsers s9 ⟨c9ops, rfl⟩).2.2⟩

/-- Claim C10: when a room participant sends `call_status` with a
terminal status other than `completed` (including `ended`), the handler
issues a call-record update with status `failed`; an update with status
`completed` is issued only for the status `completed`. -/
theorem call_status_terminal_mapping (s : WState) (connId : ℕ) (ci : ConnInfo)
    (roomId : String) (room : Room) (st : String) (reason : Option String)
    (hc : lookupA s.connections connId = some ci) (hr : ci.roomId = some roomId)
    (hm : lookupA s.rooms roomId = some room) (hne : st ≠ "") :
    ((st = "failed" ∨ st = "ended") →
      (handleCallStatus s connId (some st) reason).updates =
        [⟨room.callId, "failed", jsOr reason "Call ended via WebRTC"⟩]) ∧
    (∀ u ∈ (handleCallStatus s connId (some st) reason).updates,
      u.status = "completed" → st = "completed") := by
  unfold handleCallStatus
  rw [hc]
  simp only [hr, hm]
  rw [if_neg hne]
  simp only [hm]
  constructor
  · intro hst
    have hterm : st = "completed" ∨ st = "failed" ∨ st = "ended" := Or.inr hst
    rw [if_pos hterm]
    have hnc : ¬ st = "completed" := by
      rcases hst with h | h <;> subst h <;> decide
    rw [if_neg hnc]
  · intro u hu hcomp
    by_cases hterm : st = "completed" ∨ st = "failed" ∨ st = "ended"
    · rw [if_pos hterm] at hu
      simp only [List.mem_singleton] at hu
      subst hu
      simp only at hcomp
      by_cases hc2 : st = "completed"
      · exact hc2
      · rw [if_neg hc2] at hcomp
        exact absurd hcomp (by decide)
    · rw [if_neg hterm] at hu
      simp at hu

theorem call_status_terminal_mapping_witness :
    lookupA sC1.connections 1 = some ciC1 ∧
    (handleCallStatus sC1 1 (some "ended") none).updates =
      [⟨none, "failed", "Call ended via WebRTC"⟩] :=
  ⟨by decide,
    (call_status_terminal_mapping sC1 1 ciC1 "r" roomC1 "ended" none (by decide) rfl
      (by decide) (by decide)).1 (Or.inr rfl)⟩

end SolSight
